import Mathlib

/-!
Verification development for the newsnow fork: a shallow embedding of the
Local Configuration Store (src/atoms/primitiveMetadataAtom.ts, src/atoms/index.ts),
the aggregation orchestrator endpoint (the cached event handler and its helpers),
the sync engine's debounced push (src/hooks/useSync.ts), and the aggregated-view
resource endpoint (server/api/me/aggregated-views/index.ts), together with proofs
of the spec's claims about them.

Conventions of the embedding: JS numbers used as timestamps become `Nat` or `Int`;
fallible operations return `Except`; a JS object with optional fields becomes a
structure with `Option` fields; a `Record<string, T>` written by object spread is
an ordered association list, since JS preserves key insertion order.
-/

/-- Action tag on a configuration record: "init" | "manual" | "sync". -/
inductive MetaAction
  | init
  | manual
  | sync
deriving DecidableEq, Repr

/-- AggregatedViewConfig from shared/types: one user-defined aggregated view. -/
structure AggregatedViewConfig where
  id : String
  name : String
  sources : List String
  createdAt : Nat
  updatedAt : Nat
deriving DecidableEq, Repr

/-- PrimitiveMetadata from shared/types: the single local-first configuration record.
`pinnedColumns` and `aggregatedViews` are optional in the TypeScript interface, hence
`Option` here; `data` is the ordered column-id to source-id-list record. -/
structure PrimitiveMetadata where
  updatedTime : Nat
  data : List (String × List String)
  pinnedColumns : Option (List String)
  aggregatedViews : Option (List AggregatedViewConfig)
  action : MetaAction
deriving DecidableEq, Repr

/-- The write function of the derived atom in createPrimitiveMetadataAtom
(src/atoms/primitiveMetadataAtom.ts lines 117-132): the candidate value is applied
iff its updatedTime is strictly greater than the currently held record's. -/
def primitiveMetadataWrite (current candidate : PrimitiveMetadata) : PrimitiveMetadata :=
  if candidate.updatedTime > current.updatedTime then candidate else current

/-- C1: monotonic acceptance of the Local Configuration Store's write: a candidate with
updatedTime less than or equal to the held record's leaves the store unchanged, a candidate
with strictly greater updatedTime replaces the held record, and writing the same record a
second time is a no-op (idempotence). -/
theorem primitiveMetadataWrite_monotonic (cur cand : PrimitiveMetadata) :
    (cand.updatedTime ≤ cur.updatedTime → primitiveMetadataWrite cur cand = cur)
    ∧ (cand.updatedTime > cur.updatedTime → primitiveMetadataWrite cur cand = cand)
    ∧ primitiveMetadataWrite (primitiveMetadataWrite cur cand) cand
      = primitiveMetadataWrite cur cand := by
  refine ⟨fun h => ?_, fun h => ?_, ?_⟩
  · simp [primitiveMetadataWrite, Nat.not_lt.mpr h]
  · simp [primitiveMetadataWrite, h]
  · by_cases h : cand.updatedTime > cur.updatedTime
    · simp [primitiveMetadataWrite, h]
    · simp [primitiveMetadataWrite, h]

/-- Witness for C1 at concrete records: a stale candidate (time 5 against 10) is rejected,
a fresh candidate (time 20) is accepted, and rewriting it is a no-op. -/
theorem primitiveMetadataWrite_monotonic_witness :
    (primitiveMetadataWrite
        { updatedTime := 10, data := [], pinnedColumns := none,
          aggregatedViews := none, action := .init }
        { updatedTime := 5, data := [], pinnedColumns := none,
          aggregatedViews := none, action := .manual }
      = { updatedTime := 10, data := [], pinnedColumns := none,
          aggregatedViews := none, action := .init })
    ∧ (primitiveMetadataWrite
        { updatedTime := 10, data := [], pinnedColumns := none,
          aggregatedViews := none, action := .init }
        { updatedTime := 20, data := [], pinnedColumns := none,
          aggregatedViews := none, action := .manual }
      = { updatedTime := 20, data := [], pinnedColumns := none,
          aggregatedViews := none, action := .manual }) := by
  have h1 := primitiveMetadataWrite_monotonic
    { updatedTime := 10, data := [], pinnedColumns := none,
      aggregatedViews := none, action := .init }
    { updatedTime := 5, data := [], pinnedColumns := none,
      aggregatedViews := none, action := .manual }
  have h2 := primitiveMetadataWrite_monotonic
    { updatedTime := 10, data := [], pinnedColumns := none,
      aggregatedViews := none, action := .init }
    { updatedTime := 20, data := [], pinnedColumns := none,
      aggregatedViews := none, action := .manual }
  exact ⟨h1.1 (by decide), h2.2.1 (by decide)⟩

/-- JS object spread update of one key of a record, as in `\x7b...data, focus: v\x7d`:
an existing key keeps its position and gets the new value, a missing key is appended. -/
def setKey (m : List (String × List String)) (k : String) (v : List String) :
    List (String × List String) :=
  if m.any (fun p => p.1 = k) then m.map (fun p => if p.1 = k then (k, v) else p)
  else m ++ [(k, v)]

/-- The candidate record built by the write function of focusSourcesAtom
(src/atoms/index.ts lines 10-18): it carries only updatedTime, action and data;
pinnedColumns and aggregatedViews are not part of the object literal, so the
candidate has them absent. -/
def focusSourcesWrite (prev : PrimitiveMetadata) (newFocus : List String) (now : Nat) :
    PrimitiveMetadata :=
  { updatedTime := now
    action := .manual
    data := setKey prev.data "focus" newFocus
    pinnedColumns := none
    aggregatedViews := none }

/-- The candidate record built by the write function of currentSourcesAtom
(src/atoms/index.ts lines 79-87); identical shape, updating the current column's key. -/
def currentSourcesWrite (prev : PrimitiveMetadata) (columnId : String)
    (newSources : List String) (now : Nat) : PrimitiveMetadata :=
  { updatedTime := now
    action := .manual
    data := setKey prev.data columnId newSources
    pinnedColumns := none
    aggregatedViews := none }

/-- C10: at a concrete store state holding pinned columns and one aggregated view, a write
through focusSourcesAtom (and likewise currentSourcesAtom) is accepted by the store yet the
accepted record's pinnedColumns and aggregatedViews are absent, not equal to the previously
held record's values: the claimed frame property fails on the code, which omits both fields
from the candidate object. -/
theorem focusSourcesWrite_drops_pinned_and_views :
    (primitiveMetadataWrite
        { updatedTime := 100, data := [("focus", ["a"])],
          pinnedColumns := some ["tech"],
          aggregatedViews := some [{ id := "v1", name := "Tech", sources := ["a"],
                                     createdAt := 1, updatedAt := 1 }],
          action := .init }
        (focusSourcesWrite
          { updatedTime := 100, data := [("focus", ["a"])],
            pinnedColumns := some ["tech"],
            aggregatedViews := some [{ id := "v1", name := "Tech", sources := ["a"],
                                       createdAt := 1, updatedAt := 1 }],
            action := .init }
          ["a", "b"] 200)).pinnedColumns = none
    ∧ (primitiveMetadataWrite
        { updatedTime := 100, data := [("focus", ["a"])],
          pinnedColumns := some ["tech"],
          aggregatedViews := some [{ id := "v1", name := "Tech", sources := ["a"],
                                     createdAt := 1, updatedAt := 1 }],
          action := .init }
        (currentSourcesWrite
          { updatedTime := 100, data := [("focus", ["a"])],
            pinnedColumns := some ["tech"],
            aggregatedViews := some [{ id := "v1", name := "Tech", sources := ["a"],
                                       createdAt := 1, updatedAt := 1 }],
            action := .init }
          "tech" ["c"] 200)).aggregatedViews = none := by
  constructor
  · rfl
  · rfl

/-- Validation of a create-view body (zod createAggregatedViewSchema): name 1..50
characters, sources 1..100 entries. -/
def createViewValid (name : String) (srcs : List String) : Bool :=
  1 ≤ name.length && name.length ≤ 50 && 1 ≤ srcs.length && srcs.length ≤ 100

/-- Validation of an update-view body (zod updateAggregatedViewSchema): each provided
field obeys the same bounds, and at least one field must be provided. -/
def updateViewValid (nameOpt : Option String) (srcsOpt : Option (List String)) : Bool :=
  (match nameOpt with
   | some n => 1 ≤ n.length && n.length ≤ 50
   | none => true)
  && (match srcsOpt with
      | some s => 1 ≤ s.length && s.length ≤ 100
      | none => true)
  && (nameOpt.isSome || srcsOpt.isSome)

/-- Split a list around the first element satisfying p, mirroring findIndex followed by
index-based access: returns the elements before, the found element, and the elements after. -/
def splitAtFirst (p : α → Bool) : List α → Option (List α × α × List α)
  | [] => none
  | x :: xs =>
    if p x then some ([], x, xs)
    else (splitAtFirst p xs).map (fun r => (x :: r.1, r.2.1, r.2.2))

/-- handlePostRequest (server/api/me/aggregated-views/index.ts lines 141-182): validate the
body, reject a name already used by one of the user's views with 409, otherwise append the
new view. newId and now stand for randomUUID() and Date.now(). -/
def handlePostRequest (configs : List AggregatedViewConfig) (name : String)
    (srcs : List String) (newId : String) (now : Nat) :
    Except Nat (List AggregatedViewConfig × AggregatedViewConfig) :=
  if ¬ createViewValid name srcs then .error 400
  else if configs.any (fun c => c.name == name) then .error 409
  else
    let newConfig : AggregatedViewConfig :=
      { id := newId, name := name, sources := srcs, createdAt := now, updatedAt := now }
    .ok (configs ++ [newConfig], newConfig)

/-- The stored view collection after a create request: written through on success,
untouched when the handler throws. -/
def handlePostStore (configs : List AggregatedViewConfig) (name : String)
    (srcs : List String) (newId : String) (now : Nat) : List AggregatedViewConfig :=
  match handlePostRequest configs name srcs newId now with
  | .ok r => r.1
  | .error _ => configs

/-- handlePutRequest (server/api/me/aggregated-views/index.ts lines 187-249): missing id
or invalid body is 400, unknown id is 404, and a provided name that differs from the
record's own name must not be used by any other record (409); otherwise the record is
updated in place with updatedAt refreshed. -/
def handlePutRequest (configs : List AggregatedViewConfig) (configId : String)
    (nameOpt : Option String) (srcsOpt : Option (List String)) (now : Nat) :
    Except Nat (List AggregatedViewConfig × AggregatedViewConfig) :=
  if configId = "" then .error 400
  else if ¬ updateViewValid nameOpt srcsOpt then .error 400
  else
    match splitAtFirst (fun c => c.id == configId) configs with
    | none => .error 404
    | some (pre, cur, post) =>
      let nameConflict : Bool :=
        match nameOpt with
        | some n => (n != cur.name) && (pre ++ post).any (fun c => c.name == n)
        | none => false
      if nameConflict then .error 409
      else
        let updated : AggregatedViewConfig :=
          { cur with
            name := nameOpt.getD cur.name
            sources := srcsOpt.getD cur.sources
            updatedAt := now }
        .ok (pre ++ updated :: post, updated)

/-- C9: creating a view whose name is case-sensitively equal to an existing view's name
fails with 409 and leaves the stored collection unchanged; renaming applies the same
uniqueness check over the other records only, so an update keeping a view's own name
never conflicts, while renaming onto another record's name fails with 409. -/
theorem aggregatedViews_name_uniqueness :
    (∀ (configs : List AggregatedViewConfig) (name : String) (srcs : List String)
        (newId : String) (now : Nat),
      createViewValid name srcs = true →
      configs.any (fun c => c.name == name) = true →
      handlePostRequest configs name srcs newId now = .error 409
        ∧ handlePostStore configs name srcs newId now = configs)
    ∧ (∀ (configs : List AggregatedViewConfig) (configId : String)
          (pre post : List AggregatedViewConfig) (cur : AggregatedViewConfig)
          (srcsOpt : Option (List String)) (now : Nat),
        configId ≠ "" →
        splitAtFirst (fun c => c.id == configId) configs = some (pre, cur, post) →
        updateViewValid (some cur.name) srcsOpt = true →
        ∃ out, handlePutRequest configs configId (some cur.name) srcsOpt now = .ok out)
    ∧ (∀ (configs : List AggregatedViewConfig) (configId : String)
          (pre post : List AggregatedViewConfig) (cur : AggregatedViewConfig)
          (n : String) (now : Nat),
        configId ≠ "" →
        splitAtFirst (fun c => c.id == configId) configs = some (pre, cur, post) →
        updateViewValid (some n) none = true →
        n ≠ cur.name →
        (pre ++ post).any (fun c => c.name == n) = true →
        handlePutRequest configs configId (some n) none now = .error 409) := by
  refine ⟨?_, ?_, ?_⟩
  · intro configs name srcs newId now hv hc
    constructor
    · simp [handlePostRequest, hv, hc]
    · simp [handlePostStore, handlePostRequest, hv, hc]
  · intro configs configId pre post cur srcsOpt now hid hsplit hv
    refine ⟨(pre ++ { cur with
        name := cur.name, sources := srcsOpt.getD cur.sources, updatedAt := now } :: post,
      { cur with name := cur.name, sources := srcsOpt.getD cur.sources, updatedAt := now }), ?_⟩
    simp [handlePutRequest, hid, hv, hsplit]
  · intro configs configId pre post cur n now hid hsplit hv hne hc
    simp [handlePutRequest, hid, hv, hsplit, hne, hc]

/-- Witness for C9 at concrete collections: creating a second "Tech Roundup" is rejected
with 409 and the collection is unchanged; an update that keeps the view's own name
succeeds; renaming onto the other record's name is rejected with 409. -/
theorem aggregatedViews_name_uniqueness_witness :
    (handlePostRequest
        [{ id := "v1", name := "Tech Roundup", sources := ["a", "b"],
           createdAt := 1, updatedAt := 1 }]
        "Tech Roundup" ["a", "b"] "v2" 7 = .error 409
      ∧ handlePostStore
          [{ id := "v1", name := "Tech Roundup", sources := ["a", "b"],
             createdAt := 1, updatedAt := 1 }]
          "Tech Roundup" ["a", "b"] "v2" 7
        = [{ id := "v1", name := "Tech Roundup", sources := ["a", "b"],
             createdAt := 1, updatedAt := 1 }])
    ∧ (∃ out, handlePutRequest
        [{ id := "v1", name := "Tech Roundup", sources := ["a", "b"],
           createdAt := 1, updatedAt := 1 }]
        "v1" (some "Tech Roundup") none 9 = .ok out)
    ∧ handlePutRequest
        [{ id := "v1", name := "News", sources := ["a"], createdAt := 1, updatedAt := 1 },
         { id := "v2", name := "Tech Roundup", sources := ["b"],
           createdAt := 2, updatedAt := 2 }]
        "v1" (some "Tech Roundup") none 9 = .error 409 := by
  refine ⟨?_, ?_, ?_⟩
  · exact aggregatedViews_name_uniqueness.1
      [{ id := "v1", name := "Tech Roundup", sources := ["a", "b"],
         createdAt := 1, updatedAt := 1 }]
      "Tech Roundup" ["a", "b"] "v2" 7 (by decide) (by decide)
  · exact aggregatedViews_name_uniqueness.2.1
      [{ id := "v1", name := "Tech Roundup", sources := ["a", "b"],
         createdAt := 1, updatedAt := 1 }]
      "v1" [] []
      { id := "v1", name := "Tech Roundup", sources := ["a", "b"],
        createdAt := 1, updatedAt := 1 }
      none 9 (by decide) (by decide) (by decide)
  · exact aggregatedViews_name_uniqueness.2.2
      [{ id := "v1", name := "News", sources := ["a"], createdAt := 1, updatedAt := 1 },
       { id := "v2", name := "Tech Roundup", sources := ["b"],
         createdAt := 2, updatedAt := 2 }]
      "v1" []
      [{ id := "v2", name := "Tech Roundup", sources := ["b"],
         createdAt := 2, updatedAt := 2 }]
      { id := "v1", name := "News", sources := ["a"], createdAt := 1, updatedAt := 1 }
      "Tech Roundup" 9 (by decide) (by decide) (by decide) (by decide) (by decide)

/-- Parsing of the sourceIds query parameter (part of src roots of the aggregate
handler): split on commas and drop empty segments — `split(",").filter(Boolean)`.
The input is modelled as the already split list of segments. -/
def parseSourceIds (raw : List String) : List String :=
  raw.filter (fun s => s ≠ "")

/-- Input validation of the aggregate handler (lines 104-117 of the handler): an empty
parsed list is a 400, and so is a parsed list with no id registered in both the source
table and the getter table; otherwise the valid ids are returned. -/
def validateSourceIds (raw : List String) (hasSource hasGetter : String → Bool) :
    Except Nat (List String) :=
  let sourceIds := parseSourceIds raw
  if sourceIds.isEmpty then .error 400
  else
    let validSourceIds := sourceIds.filter (fun id => hasSource id && hasGetter id)
    if validSourceIds.isEmpty then .error 400
    else .ok validSourceIds

/-- C5: the aggregate handler's validation fails iff the requested ids, filtered to those
with both a registered source definition and a registered fetcher, are empty; every such
failure carries status 400, and whenever the filtered list is non-empty validation
succeeds with exactly that list (no other property of the id list causes a failure). -/
theorem validateSourceIds_fails_iff_no_valid (raw : List String)
    (hasSource hasGetter : String → Bool) :
    ((∃ e, validateSourceIds raw hasSource hasGetter = .error e)
      ↔ (parseSourceIds raw).filter (fun id => hasSource id && hasGetter id) = [])
    ∧ (∀ e, validateSourceIds raw hasSource hasGetter = .error e → e = 400)
    ∧ ((parseSourceIds raw).filter (fun id => hasSource id && hasGetter id) ≠ [] →
        validateSourceIds raw hasSource hasGetter
          = .ok ((parseSourceIds raw).filter (fun id => hasSource id && hasGetter id))) := by
  constructor
  · constructor
    · rintro ⟨e, he⟩
      unfold validateSourceIds at he
      by_cases h0 : (parseSourceIds raw).isEmpty
      · simp [List.isEmpty_iff.mp h0]
      · by_cases h1 :
          ((parseSourceIds raw).filter (fun id => hasSource id && hasGetter id)).isEmpty
        · exact List.isEmpty_iff.mp h1
        · simp [h0, h1] at he
    · intro hf
      unfold validateSourceIds
      by_cases h0 : (parseSourceIds raw).isEmpty
      · exact ⟨400, by simp [h0]⟩
      · exact ⟨400, by simp [h0, hf]⟩
  constructor
  · intro e he
    unfold validateSourceIds at he
    by_cases h0 : (parseSourceIds raw).isEmpty
    · simp [h0] at he
      omega
    · by_cases h1 :
        ((parseSourceIds raw).filter (fun id => hasSource id && hasGetter id)).isEmpty
      · simp [h0, h1] at he
        omega
      · simp [h0, h1] at he
  · intro hf
    unfold validateSourceIds
    have h0 : ¬ (parseSourceIds raw).isEmpty := by
      intro h
      exact hf (by simp [List.isEmpty_iff.mp h])
    have h1 :
        ¬ ((parseSourceIds raw).filter (fun id => hasSource id && hasGetter id)).isEmpty := by
      simpa [List.isEmpty_iff] using hf
    simp [h0, h1]

/-- Witness for C5: the empty request and a request of only unregistered ids both fail
with 400, while a request containing one registered id succeeds. -/
theorem validateSourceIds_fails_iff_no_valid_witness :
    validateSourceIds [] (fun _ => true) (fun _ => true) = .error 400
    ∧ validateSourceIds ["not-a-real-id"] (fun _ => false) (fun _ => false) = .error 400
    ∧ validateSourceIds ["x", ""] (fun s => s == "x") (fun s => s == "x") = .ok ["x"] := by
  have h1 := (validateSourceIds_fails_iff_no_valid [] (fun _ => true) (fun _ => true)).1.mpr
    (by decide)
  have h1e := (validateSourceIds_fails_iff_no_valid [] (fun _ => true) (fun _ => true)).2.1
  have h2 := (validateSourceIds_fails_iff_no_valid ["not-a-real-id"]
    (fun _ => false) (fun _ => false)).1.mpr (by decide)
  have h2e := (validateSourceIds_fails_iff_no_valid ["not-a-real-id"]
    (fun _ => false) (fun _ => false)).2.1
  have h3 := (validateSourceIds_fails_iff_no_valid ["x", ""]
    (fun s => s == "x") (fun s => s == "x")).2.2 (by decide)
  refine ⟨?_, ?_, ?_⟩
  · obtain ⟨e, he⟩ := h1
    have := h1e e he
    rw [this] at he
    exact he
  · obtain ⟨e, he⟩ := h2
    have := h2e e he
    rw [this] at he
    exact he
  · simpa using h3

/-- JS Array.prototype.sort on the comma-split id segments: a stable sort in the
lexicographic string order. -/
def sortStringsJS (l : List String) : List String :=
  l.mergeSort (fun a b => a ≤ b)

/-- getKey of the cached aggregate handler (the handler's cache options): sort the
comma-split non-empty id segments, join with commas, and append a cache-busting
"-latest-" suffix carrying Date.now() when the latest flag is requested. -/
def getKey (sourceIds : List String) (latest : Bool) (now : Nat) : String :=
  let sorted := sortStringsJS (sourceIds.filter (fun s => s ≠ ""))
  let latestParam := if latest then "-latest-" ++ toString now else ""
  "aggregate:" ++ String.intercalate "," sorted ++ latestParam

/-- C6 counterexample: the key is not a function of the deduplicated id set — requesting
the same id twice yields a different key than requesting it once. -/
theorem getKey_not_deduplicated :
    getKey ["a", "a"] false 0 ≠ getKey ["a"] false 0 := by
  have e1 : sortStringsJS ["a", "a"] = ["a", "a"] :=
    List.mergeSort_of_sorted (by simp [List.pairwise_cons])
  have e2 : sortStringsJS ["a"] = ["a"] :=
    List.mergeSort_of_sorted (by simp)
  have k1 : getKey ["a", "a"] false 0 = "aggregate:a,a" := by
    unfold getKey
    rw [show List.filter (fun s => decide (s ≠ "")) ["a", "a"] = ["a", "a"] from rfl, e1]
    rfl
  have k2 : getKey ["a"] false 0 = "aggregate:a" := by
    unfold getKey
    rw [show List.filter (fun s => decide (s ≠ "")) ["a"] = ["a"] from rfl, e2]
    rfl
  rw [k1, k2]
  decide

/-- Sorting two permuted lists of strings gives the same list. -/
theorem sortStringsJS_perm_eq (l1 l2 : List String) (h : l1.Perm l2) :
    sortStringsJS l1 = sortStringsJS l2 := by
  have hs : ∀ l : List String, List.Sorted (· ≤ ·) (sortStringsJS l) := by
    intro l
    have := @List.sorted_mergeSort String
      (fun a b : String => a ≤ b)
      (fun a b c h1 h2 => by
        simp only [decide_eq_true_eq] at h1 h2 ⊢
        exact le_trans h1 h2)
      (fun a b => by
        simpa [Bool.or_eq_true, decide_eq_true_eq] using le_total a b)
      l
    exact this.imp (fun h => by simpa [decide_eq_true_eq] using h)
  exact List.eq_of_perm_of_sorted
    ((List.mergeSort_perm l1 _).trans (h.trans (List.mergeSort_perm l2 _).symm))
    (hs l1) (hs l2)

/-- C6 amended: the outer cache key is a function of the sorted — not deduplicated —
requested id list: two requests whose id lists are permutations of each other produce
the same key; and a force-fresh request's key always differs from the key of any
non-force-fresh request for the same id list, so it bypasses the previously cached
response for that id list. -/
theorem getKey_sorted_and_force_fresh_bypasses :
    (∀ (ids1 ids2 : List String) (latest : Bool) (now : Nat),
      ids1.Perm ids2 → getKey ids1 latest now = getKey ids2 latest now)
    ∧ (∀ (ids : List String) (now nowPrev : Nat),
      getKey ids true now ≠ getKey ids false nowPrev) := by
  constructor
  · intro ids1 ids2 latest now h
    unfold getKey
    rw [sortStringsJS_perm_eq _ _ (h.filter (fun s => s ≠ ""))]
  · intro ids now nowPrev h
    have hlen := congrArg String.length h
    simp [getKey, String.length_append] at hlen
    exact (by decide : ¬ ("-latest-" : String).length = 0) hlen.1

/-- Witness for C6: two concrete requests with the same ids in a different order share a
key, and a concrete force-fresh request's key differs from the cached one. -/
theorem getKey_sorted_and_force_fresh_bypasses_witness :
    getKey ["b", "a"] false 3 = getKey ["a", "b"] false 3
    ∧ getKey ["a", "b"] true 4 ≠ getKey ["a", "b"] false 3 := by
  exact ⟨getKey_sorted_and_force_fresh_bypasses.1 ["b", "a"] ["a", "b"] false 3
      (by decide),
    getKey_sorted_and_force_fresh_bypasses.2 ["a", "b"] 4 3⟩

/-- A news item as the aggregate handler consumes it: pubDate and extra.date may each be
a numeric epoch, a date string, or absent. Only the fields the handler reads are kept. -/
structure NewsItem where
  id : String
  pubDate : Option (Int ⊕ String)
  extraDate : Option (Int ⊕ String)
deriving DecidableEq, Repr

/-- A cache table row for one source: its items and the entry's updated timestamp. -/
structure CacheEntry where
  items : List NewsItem
  updated : Int
deriving DecidableEq, Repr

/-- Response status of one source inside the aggregate call. -/
inductive RStatus
  | success
  | cache
deriving DecidableEq, Repr

/-- SourceResult of the aggregate handler: one source's contribution. -/
structure SourceResult where
  id : String
  items : List NewsItem
  updatedTime : Int
  status : RStatus
deriving DecidableEq, Repr

/-- Default stale TTL of the aggregate handler: 30 minutes in milliseconds. -/
def TTL : Int := 30 * 60 * 1000

/-- Per-source item cap of the aggregate handler. -/
def MAX_ITEMS_PER_SOURCE : Nat := 10

/-- Aggregated item cap of the aggregate handler. -/
def MAX_AGGREGATED_ITEMS : Nat := 50

/-- JS truthiness of a date field: the number 0 and the empty string are falsy, so
`if (item.pubDate)` skips them exactly like an absent field. -/
def truthyDate : Option (Int ⊕ String) → Option (Int ⊕ String)
  | some (.inl n) => if n = 0 then none else some (.inl n)
  | some (.inr s) => if s = "" then none else some (.inr s)
  | none => none

/-- getItemTimestamp of the aggregate handler: pubDate first, then extra.date, then the
current time; a string field goes through date parsing, modelled by parseDate. -/
def getItemTimestamp (parseDate : String → Int) (now : Int) (item : NewsItem) : Int :=
  match truthyDate item.pubDate with
  | some (.inl n) => n
  | some (.inr s) => parseDate s
  | none =>
    match truthyDate item.extraDate with
    | some (.inl n) => n
    | some (.inr s) => parseDate s
    | none => now

/-- fetchLatestData of the aggregate handler: invoke the fetcher (its outcome is the
fetchResult argument), trim a successful result to the per-source cap; on failure fall
back to the cache entry with status cache when one exists, else to an empty successful
result. The Bool of the pair records that the fetcher was invoked. The asynchronous
cache write-back is fire-and-forget and does not affect the returned value. -/
def fetchLatestData (sourceId : String) (cache : Option CacheEntry) (now : Int)
    (fetchResult : Except Unit (List NewsItem)) : SourceResult × Bool :=
  match fetchResult with
  | .ok newData =>
    ({ id := sourceId, items := newData.take MAX_ITEMS_PER_SOURCE,
       updatedTime := now, status := .success }, true)
  | .error _ =>
    match cache with
    | some c =>
      ({ id := sourceId, items := c.items, updatedTime := c.updated,
         status := .cache }, true)
    | none =>
      ({ id := sourceId, items := [], updatedTime := now, status := .success }, true)

/-- Everything the aggregate handler can observe about one source: its cache entry, its
configured refresh interval, and what its fetcher would return if invoked. -/
structure SourceEnv where
  cache : Option CacheEntry
  interval : Int
  fetchResult : Except Unit (List NewsItem)

/-- The per-source dispatch of the aggregate handler (the body of the map building
fetchPromises): force-fresh always fetches; a cache entry younger than the source's
refresh interval is served as success stamped now without fetching; one younger than the
stale TTL is served as cache stamped with its own time without fetching; otherwise the
fetcher runs. The Bool records whether the fetcher was invoked. -/
def processSource (sourceId : String) (forceLatest : Bool) (env : SourceEnv) (now : Int) :
    SourceResult × Bool :=
  if forceLatest then fetchLatestData sourceId env.cache now env.fetchResult
  else
    match env.cache with
    | some c =>
      if now - c.updated < env.interval then
        ({ id := sourceId, items := c.items, updatedTime := now, status := .success }, false)
      else if now - c.updated < TTL then
        ({ id := sourceId, items := c.items, updatedTime := c.updated,
           status := .cache }, false)
      else fetchLatestData sourceId (some c) now env.fetchResult
    | none => fetchLatestData sourceId none now env.fetchResult

/-- An item in the merged feed: the news item annotated with its source id, the source's
display name, and the resolved ranking timestamp. -/
structure AggregatedNewsItem extends NewsItem where
  originalSourceId : String
  originalSourceName : String
  timestamp : Int
deriving DecidableEq, Repr

/-- The merge step of the aggregate handler: flatten all per-source results, annotating
each item with its origin and resolved timestamp. -/
def mergeItems (parseDate : String → Int) (now : Int) (sourceName : String → String)
    (results : List SourceResult) : List AggregatedNewsItem :=
  results.flatMap (fun r => r.items.map (fun item =>
    { toNewsItem := item
      originalSourceId := r.id
      originalSourceName := sourceName r.id
      timestamp := getItemTimestamp parseDate now item }))

/-- Response envelope of the aggregate handler. -/
structure AggregateResponse where
  sourceIds : List String
  updatedTime : Int
  items : List AggregatedNewsItem
  total : Nat
deriving DecidableEq, Repr

/-- The body of the aggregate handler after validation: evaluate every valid source
independently through processSource, merge, sort descending by resolved timestamp (JS
stable sort with comparator b.timestamp - a.timestamp), truncate to the aggregated cap,
and report the pre-truncation count as total. The cache table itself is assumed
reachable (its absence is a separate 500 not depending on the id list), and per-source
fetch outcomes are the env's fetchResult values. -/
def aggregatePipeline (validSourceIds : List String) (sourceName : String → String)
    (env : String → SourceEnv) (forceLatest : Bool) (parseDate : String → Int)
    (now : Int) : AggregateResponse :=
  let results := validSourceIds.map (fun id => (processSource id forceLatest (env id) now).1)
  let allNewsItems := mergeItems parseDate now sourceName results
  let sortedItems :=
    (allNewsItems.mergeSort (fun a b => b.timestamp ≤ a.timestamp)).take MAX_AGGREGATED_ITEMS
  { sourceIds := validSourceIds, updatedTime := now,
    items := sortedItems, total := allNewsItems.length }

/-- The aggregate handler entry: validation first, then the pipeline over the valid ids. -/
def aggregateHandler (raw : List String) (hasSource hasGetter : String → Bool)
    (sourceName : String → String) (env : String → SourceEnv) (forceLatest : Bool)
    (parseDate : String → Int) (now : Int) : Except Nat AggregateResponse :=
  match validateSourceIds raw hasSource hasGetter with
  | .error e => .error e
  | .ok validSourceIds =>
    .ok (aggregatePipeline validSourceIds sourceName env forceLatest parseDate now)

/-- C4: a cache entry strictly younger than the source's refresh interval short-circuits
the per-source evaluation in a non-forced aggregate call: the fetcher is not invoked (the
invocation flag is false and the outcome does not depend on what the fetcher would
return), and the source's result is exactly the cached items with status success stamped
with the current time. -/
theorem fresh_cache_skips_fetcher (sourceId : String) (env : SourceEnv) (now : Int)
    (c : CacheEntry) (hc : env.cache = some c) (hfresh : now - c.updated < env.interval) :
    processSource sourceId false env now
      = ({ id := sourceId, items := c.items, updatedTime := now, status := .success }, false)
    ∧ ∀ fr, processSource sourceId false { env with fetchResult := fr } now
        = processSource sourceId false env now := by
  constructor
  · simp [processSource, hc, hfresh]
  · intro fr
    simp [processSource, hc, hfresh]

/-- Witness for C4: a concrete source whose cache entry is 5 units old against a refresh
interval of 10 is served from cache as success with no fetcher invocation, whatever the
fetcher would have produced. -/
theorem fresh_cache_skips_fetcher_witness :
    processSource "x"
        false
        { cache := some { items := [{ id := "n1", pubDate := none, extraDate := none }],
                          updated := 95 },
          interval := 10,
          fetchResult := .error () } 100
      = ({ id := "x",
           items := [{ id := "n1", pubDate := none, extraDate := none }],
           updatedTime := 100, status := .success }, false) :=
  (fresh_cache_skips_fetcher "x"
    { cache := some { items := [{ id := "n1", pubDate := none, extraDate := none }],
                      updated := 95 },
      interval := 10,
      fetchResult := .error () } 100
    { items := [{ id := "n1", pubDate := none, extraDate := none }], updated := 95 }
    rfl (by decide)).1

/-- C3: a failing fetcher degrades instead of propagating: with a cache entry (however
stale) the source's result is the cached items with status cache and the entry's own
timestamp; without one it is an empty item list with status success; the aggregate call
still returns a successful response whenever validation passed, and the result of every
other requested source is unaffected by the failing source's environment. -/
theorem fetch_failure_degrades :
    (∀ (sourceId : String) (c : CacheEntry) (now : Int),
      fetchLatestData sourceId (some c) now (.error ())
        = ({ id := sourceId, items := c.items, updatedTime := c.updated,
             status := .cache }, true))
    ∧ (∀ (sourceId : String) (now : Int),
      fetchLatestData sourceId none now (.error ())
        = ({ id := sourceId, items := [], updatedTime := now, status := .success }, true))
    ∧ (∀ (raw : List String) (hasSource hasGetter : String → Bool)
          (sourceName : String → String) (env : String → SourceEnv) (forceLatest : Bool)
          (parseDate : String → Int) (now : Int) (v : List String),
        validateSourceIds raw hasSource hasGetter = .ok v →
        ∃ resp, aggregateHandler raw hasSource hasGetter sourceName env forceLatest
            parseDate now = .ok resp ∧ resp.sourceIds = v)
    ∧ (∀ (env envFail : String → SourceEnv) (x : String) (forceLatest : Bool) (now : Int),
        (∀ y, y ≠ x → env y = envFail y) →
        ∀ y, y ≠ x →
          processSource y forceLatest (envFail y) now
            = processSource y forceLatest (env y) now) := by
  refine ⟨fun sourceId c now => rfl, fun sourceId now => rfl, ?_, ?_⟩
  · intro raw hasSource hasGetter sourceName env forceLatest parseDate now v hv
    unfold aggregateHandler
    rw [hv]
    exact ⟨_, rfl, rfl⟩
  · intro env envFail x forceLatest now hagree y hy
    rw [hagree y hy]

/-- Witness for C3: for a concrete failing source with a stale cache entry the result is
the entry's items with status cache; the aggregate call over that source and a healthy
one still succeeds; and the healthy source's per-source evaluation is identical whether
or not the other source's fetcher fails. -/
theorem fetch_failure_degrades_witness :
    fetchLatestData "x"
        (some { items := [{ id := "n1", pubDate := none, extraDate := none }]
                updated := 40 }) 100 (.error ())
      = ({ id := "x", items := [{ id := "n1", pubDate := none, extraDate := none }],
           updatedTime := 40, status := .cache }, true)
    ∧ (∃ resp, aggregateHandler ["x", "y"] (fun _ => true) (fun _ => true) (fun _ => "src")
        (fun _ => { cache := none, interval := 10, fetchResult := .error () }) false
        (fun _ => 0) 100 = .ok resp ∧ resp.sourceIds = ["x", "y"])
    ∧ processSource "y" false
        ((fun z => if z = "x"
            then { cache := none, interval := 10, fetchResult := .error () }
            else { cache := none, interval := 10, fetchResult := .ok [] }) "y") 100
      = processSource "y" false
          ((fun _ => { cache := none, interval := 10, fetchResult := .ok [] }) "y") 100 := by
  refine ⟨?_, ?_, ?_⟩
  · exact fetch_failure_degrades.1 "x"
      { items := [{ id := "n1", pubDate := none, extraDate := none }], updated := 40 } 100
  · exact fetch_failure_degrades.2.2.1 ["x", "y"] (fun _ => true) (fun _ => true)
      (fun _ => "src")
      (fun _ => { cache := none, interval := 10, fetchResult := .error () }) false
      (fun _ => 0) 100 ["x", "y"] rfl
  · exact fetch_failure_degrades.2.2.2
      (fun _ => { cache := none, interval := 10, fetchResult := .ok [] })
      (fun z => if z = "x"
        then { cache := none, interval := 10, fetchResult := .error () }
        else { cache := none, interval := 10, fetchResult := .ok [] })
      "x" false 100
      (fun y hy => by simp [hy]) "y" (by decide)


/-- C2: whenever the aggregate handler returns a response, its items are sorted
non-increasing by resolved timestamp, truncated to the aggregated item cap, and total is
the count of merged items before truncation, so total bounds the returned length. -/
theorem aggregate_sorted_capped_total (raw : List String)
    (hasSource hasGetter : String → Bool) (sourceName : String → String)
    (env : String → SourceEnv) (forceLatest : Bool) (parseDate : String → Int)
    (now : Int) (resp : AggregateResponse)
    (h : aggregateHandler raw hasSource hasGetter sourceName env forceLatest parseDate now
      = .ok resp) :
    resp.items.Pairwise (fun a b => b.timestamp ≤ a.timestamp)
    ∧ resp.items.length ≤ MAX_AGGREGATED_ITEMS
    ∧ resp.total = (mergeItems parseDate now sourceName
        (resp.sourceIds.map (fun id => (processSource id forceLatest (env id) now).1))).length
    ∧ resp.items.length ≤ resp.total := by
  unfold aggregateHandler at h
  cases hv : validateSourceIds raw hasSource hasGetter with
  | error e =>
    rw [hv] at h
    exact absurd h (by simp)
  | ok v =>
    rw [hv] at h
    have hres := Except.ok.inj h
    subst hres
    refine ⟨?_, ?_, rfl, ?_⟩
    · have hsorted := @List.sorted_mergeSort AggregatedNewsItem
        (fun a b : AggregatedNewsItem => b.timestamp ≤ a.timestamp)
        (fun a b c h1 h2 => by
          simp only [decide_eq_true_eq] at h1 h2 ⊢
          omega)
        (fun a b => by
          rcases le_total b.timestamp a.timestamp with h | h <;> simp [h])
        (mergeItems parseDate now sourceName
          (v.map (fun id => (processSource id forceLatest (env id) now).1)))
      exact (List.Pairwise.sublist (List.take_sublist _ _) hsorted).imp
        (fun h => by simpa using h)
    · show ((List.mergeSort _ _).take MAX_AGGREGATED_ITEMS).length ≤ MAX_AGGREGATED_ITEMS
      simp [List.length_take]
    · show ((List.mergeSort _ _).take MAX_AGGREGATED_ITEMS).length
        ≤ (mergeItems parseDate now sourceName
            (v.map (fun id => (processSource id forceLatest (env id) now).1))).length
      simp [List.length_take]

/-- Fixture: one news item without dates, its cache entry, and its source environment
with a fresh cache entry and a failing fetcher. -/
def sampleNewsItem : NewsItem :=
  { id := "n1", pubDate := none, extraDate := none }

/-- Fixture: source environment holding sampleNewsItem in a cache entry of age 5 against
a refresh interval of 10, with a fetcher that would fail if called. -/
def sampleEnvC2 : SourceEnv :=
  { cache := some { items := [sampleNewsItem], updated := 95 }
    interval := 10
    fetchResult := .error () }

/-- Fixture: the merged feed item produced for sampleNewsItem served at time 100. -/
def sampleAggItem : AggregatedNewsItem :=
  { toNewsItem := sampleNewsItem, originalSourceId := "x",
    originalSourceName := "S", timestamp := 100 }

/-- Fixture: the full response of the aggregate call over the single source "x". -/
def sampleRespC2 : AggregateResponse :=
  { sourceIds := ["x"], updatedTime := 100, items := [sampleAggItem], total := 1 }

/-- Witness for C2 at a concrete single-source call served from a fresh cache entry: the
handler returns sampleRespC2, and sortedness, cap and total properties hold of it. -/
theorem aggregate_sorted_capped_total_witness :
    sampleRespC2.items.Pairwise (fun a b => b.timestamp ≤ a.timestamp)
    ∧ sampleRespC2.items.length ≤ MAX_AGGREGATED_ITEMS
    ∧ sampleRespC2.total = (mergeItems (fun _ => 0) 100 (fun _ => "S")
        (sampleRespC2.sourceIds.map (fun id => (processSource id false
          ((fun _ => sampleEnvC2) id) 100).1))).length
    ∧ sampleRespC2.items.length ≤ sampleRespC2.total := by
  have hm : mergeItems (fun _ => 0) 100 (fun _ => "S")
      ((["x"]).map (fun id => (processSource id false ((fun _ => sampleEnvC2) id) 100).1))
    = [sampleAggItem] := rfl
  have hp : aggregatePipeline ["x"] (fun _ => "S") (fun _ => sampleEnvC2) false
      (fun _ => 0) 100 = sampleRespC2 := by
    simp only [aggregatePipeline]
    rw [hm, List.mergeSort_singleton]
    rfl
  have h : aggregateHandler ["x"] (fun _ => true) (fun _ => true) (fun _ => "S")
      (fun _ => sampleEnvC2) false (fun _ => 0) 100 = .ok sampleRespC2 := by
    show Except.ok (aggregatePipeline ["x"] (fun _ => "S") (fun _ => sampleEnvC2) false
      (fun _ => 0) 100) = .ok sampleRespC2
    rw [hp]
  exact aggregate_sorted_capped_total ["x"] (fun _ => true) (fun _ => true) (fun _ => "S")
    (fun _ => sampleEnvC2) false (fun _ => 0) 100 sampleRespC2 h

/-- Modelled from the spec: one entry of the canonical source catalog (shared/sources,
generated data that is not under src). Only the field preprocessMetadata reads is kept:
the optional redirect target. Spec section 3: disabled or redirected sources are
resolved to their canonical id. -/
structure CatalogEntry where
  redirect : Option String

/-- handleSourceRedirect (src/atoms/primitiveMetadataAtom.ts lines 44-46): follow the
catalog redirect of an id when one exists, else keep the id. -/
def handleSourceRedirect (cat : String → Option CatalogEntry) (sourceId : String) :
    String :=
  match cat sourceId with
  | some e => e.redirect.getD sourceId
  | none => sourceId

/-- Read target.data[columnId] || [] from the ordered record. -/
def lookupData (data : List (String × List String)) (c : String) : List String :=
  ((data.find? (fun p => p.1 == c)).map Prod.snd).getD []

/-- The focus branch of preprocessMetadata: keep only ids present in the catalog and
apply redirects to all of them. -/
def processFocusColumn (cat : String → Option CatalogEntry) (columnSources : List String) :
    List String :=
  (columnSources.filter (fun k => (cat k).isSome)).map (handleSourceRedirect cat)

/-- validExistingSources of preprocessMetadata's non-focus branch: stored ids that are
among the column's catalog defaults, redirects applied, in stored order. -/
def validExistingSources (cat : String → Option CatalogEntry)
    (defaultSources columnSources : List String) : List String :=
  (columnSources.filter (fun k => defaultSources.contains k)).map (handleSourceRedirect cat)

/-- newDefaultSources of preprocessMetadata's non-focus branch: catalog defaults not
already present, appended after the existing ids. -/
def newDefaultSources (cat : String → Option CatalogEntry)
    (defaultSources columnSources : List String) : List String :=
  defaultSources.filter
    (fun k => ! (validExistingSources cat defaultSources columnSources).contains k)

/-- The non-focus branch of preprocessMetadata for one fixed column. -/
def processFixedColumn (cat : String → Option CatalogEntry)
    (defaultSources columnSources : List String) : List String :=
  validExistingSources cat defaultSources columnSources
    ++ newDefaultSources cat defaultSources columnSources

/-- One entry of the processed data record: the focus column filters against the catalog,
every other fixed column merges its stored ids with the column's defaults. -/
def processColumnEntry (cat : String → Option CatalogEntry)
    (data : List (String × List String)) (cd : String × List String) :
    String × List String :=
  if cd.1 = "focus" then (cd.1, processFocusColumn cat (lookupData data cd.1))
  else (cd.1, processFixedColumn cat cd.2 (lookupData data cd.1))

/-- preprocessMetadata (src/atoms/primitiveMetadataAtom.ts lines 55-89) over the
spec-modelled catalog cat and fixed-column default map initialMetadata (ordered column
id with default source list; generated data not under src). JSON serialization of the
fully populated record is the identity in this model, so the round trip of the claim is
preprocessing twice. -/
def preprocessMetadata (cat : String → Option CatalogEntry)
    (initialMetadata : List (String × List String)) (target : PrimitiveMetadata) :
    PrimitiveMetadata :=
  { data := initialMetadata.map (processColumnEntry cat target.data)
    pinnedColumns := some (target.pinnedColumns.getD [])
    aggregatedViews := some (target.aggregatedViews.getD [])
    action := target.action
    updatedTime := target.updatedTime }

/-- A list on which the focus processing is the identity is a fixed point of it. -/
theorem processFocusColumn_fixed (cat : String → Option CatalogEntry) (m : List String)
    (hm : ∀ x ∈ m, (cat x).isSome = true ∧ handleSourceRedirect cat x = x) :
    processFocusColumn cat m = m := by
  unfold processFocusColumn
  rw [List.filter_eq_self.mpr (fun x hx => (hm x hx).1)]
  calc m.map (handleSourceRedirect cat)
      = m.map id := List.map_congr_left (fun x hx => (hm x hx).2)
    _ = m := List.map_id m

/-- Under a catalog whose redirect targets are canonical (present and redirect-free),
the focus processing is idempotent. -/
theorem processFocusColumn_idem (cat : String → Option CatalogEntry)
    (hcanon : ∀ k e t, cat k = some e → e.redirect = some t →
      ∃ e2, cat t = some e2 ∧ e2.redirect = none)
    (l : List String) :
    processFocusColumn cat (processFocusColumn cat l) = processFocusColumn cat l := by
  apply processFocusColumn_fixed
  intro x hx
  unfold processFocusColumn at hx
  obtain ⟨k, hk, rfl⟩ := List.mem_map.mp hx
  have hkin : ((cat k).isSome : Bool) = true := (List.mem_filter.mp hk).2
  unfold handleSourceRedirect
  cases hck : cat k with
  | none => rw [hck] at hkin; simp at hkin
  | some e =>
    cases hre : e.redirect with
    | none => simp [handleSourceRedirect, hck, hre]
    | some t =>
      obtain ⟨e2, ht, hre2⟩ := hcanon k e t hck hre
      simp [handleSourceRedirect, hck, hre, ht, hre2]

/-- A list whose elements are exactly the column defaults, with redirects the identity
on it, is a fixed point of the fixed-column processing. -/
theorem processFixedColumn_fixed (cat : String → Option CatalogEntry) (D : List String)
    (hd : ∀ d ∈ D, handleSourceRedirect cat d = d) (m : List String)
    (h1 : ∀ x ∈ m, x ∈ D) (h2 : ∀ d ∈ D, d ∈ m) :
    processFixedColumn cat D m = m := by
  have hA : validExistingSources cat D m = m := by
    unfold validExistingSources
    rw [List.filter_eq_self.mpr (fun x hx => by
      simpa [List.contains, List.elem_iff] using h1 x hx)]
    calc m.map (handleSourceRedirect cat)
        = m.map id := List.map_congr_left (fun x hx => hd x (h1 x hx))
      _ = m := List.map_id m
  have hB : newDefaultSources cat D m = [] := by
    unfold newDefaultSources
    rw [hA]
    exact List.filter_eq_nil_iff.mpr (fun d hdD => by
      simpa [List.contains, List.elem_iff] using h2 d hdD)
  unfold processFixedColumn
  rw [hA, hB, List.append_nil]

/-- With redirect-free defaults, the fixed-column processing is idempotent. -/
theorem processFixedColumn_idem (cat : String → Option CatalogEntry) (D : List String)
    (hd : ∀ d ∈ D, handleSourceRedirect cat d = d) (l : List String) :
    processFixedColumn cat D (processFixedColumn cat D l)
      = processFixedColumn cat D l := by
  apply processFixedColumn_fixed cat D hd
  · intro x hx
    unfold processFixedColumn at hx
    rcases List.mem_append.mp hx with hx | hx
    · unfold validExistingSources at hx
      obtain ⟨k, hk, rfl⟩ := List.mem_map.mp hx
      have hkD : k ∈ D := by
        simpa [List.contains, List.elem_iff] using (List.mem_filter.mp hk).2
      rw [hd k hkD]
      exact hkD
    · exact (List.mem_filter.mp hx).1
  · intro d hdD
    unfold processFixedColumn
    rw [List.mem_append]
    by_cases hc : d ∈ validExistingSources cat D l
    · exact Or.inl hc
    · right
      unfold newDefaultSources
      refine List.mem_filter.mpr ⟨hdD, ?_⟩
      simpa [List.contains, List.elem_iff] using hc

/-- Looking a column up in the processed record built over distinct keys by a
key-preserving map yields exactly that column's processed entry. -/
theorem lookupData_map_of_nodup (g : String × List String → String × List String)
    (hg : ∀ cd, (g cd).1 = cd.1) :
    ∀ (im : List (String × List String)), (im.map Prod.fst).Nodup →
      ∀ cd ∈ im, lookupData (im.map g) cd.1 = (g cd).2 := by
  intro im
  induction im with
  | nil => intro _ cd hcd; simp at hcd
  | cons hd tl ih =>
    intro hnodup cd hcd
    rw [List.map_cons] at hnodup
    have hnd := List.nodup_cons.mp hnodup
    rcases List.mem_cons.mp hcd with he | htl
    · subst he
      unfold lookupData
      rw [List.map_cons, List.find?_cons_of_pos _ (by simp [hg cd])]
      simp
    · have hne : hd.1 ≠ cd.1 := by
        intro he
        exact hnd.1 (by rw [he]; exact List.mem_map_of_mem Prod.fst htl)
      have hrec := ih hnd.2 cd htl
      unfold lookupData at hrec ⊢
      rw [List.map_cons, List.find?_cons_of_neg _ (by simp [hg hd, hne])]
      exact hrec

/-- C7: preprocessing a recovered or pulled record is idempotent: over a catalog whose
redirect targets are canonical (present, no further redirect), whose fixed-column ids
are distinct, and whose column defaults carry no redirect, applying preprocessMetadata
to the result of preprocessMetadata changes nothing (serialization of the fully
populated record being the identity of the model). -/
theorem preprocessMetadata_idempotent (cat : String → Option CatalogEntry)
    (initialMetadata : List (String × List String)) (target : PrimitiveMetadata)
    (hnodup : (initialMetadata.map Prod.fst).Nodup)
    (hcanon : ∀ k e t, cat k = some e → e.redirect = some t →
      ∃ e2, cat t = some e2 ∧ e2.redirect = none)
    (hdef : ∀ cd ∈ initialMetadata, ∀ d ∈ cd.2, handleSourceRedirect cat d = d) :
    preprocessMetadata cat initialMetadata (preprocessMetadata cat initialMetadata target)
      = preprocessMetadata cat initialMetadata target := by
  have hg : ∀ ce, (processColumnEntry cat target.data ce).1 = ce.1 := by
    intro ce
    unfold processColumnEntry
    split <;> rfl
  have hdata : initialMetadata.map (processColumnEntry cat
      (initialMetadata.map (processColumnEntry cat target.data)))
      = initialMetadata.map (processColumnEntry cat target.data) := by
    apply List.map_congr_left
    intro cd hcd
    have hlook := lookupData_map_of_nodup (processColumnEntry cat target.data) hg
      initialMetadata hnodup cd hcd
    by_cases hf : cd.1 = "focus"
    · have hlook2 : lookupData (initialMetadata.map (processColumnEntry cat target.data))
          cd.1 = processFocusColumn cat (lookupData target.data cd.1) := by
        rw [hlook]
        unfold processColumnEntry
        rw [if_pos hf]
      have houter : processColumnEntry cat
          (initialMetadata.map (processColumnEntry cat target.data)) cd
          = (cd.1, processFocusColumn cat (lookupData
              (initialMetadata.map (processColumnEntry cat target.data)) cd.1)) := by
        unfold processColumnEntry
        rw [if_pos hf]
      have hrhs : processColumnEntry cat target.data cd
          = (cd.1, processFocusColumn cat (lookupData target.data cd.1)) := by
        unfold processColumnEntry
        rw [if_pos hf]
      rw [houter, hrhs, hlook2, processFocusColumn_idem cat hcanon]
    · have hlook2 : lookupData (initialMetadata.map (processColumnEntry cat target.data))
          cd.1 = processFixedColumn cat cd.2 (lookupData target.data cd.1) := by
        rw [hlook]
        unfold processColumnEntry
        rw [if_neg hf]
      have houter : processColumnEntry cat
          (initialMetadata.map (processColumnEntry cat target.data)) cd
          = (cd.1, processFixedColumn cat cd.2 (lookupData
              (initialMetadata.map (processColumnEntry cat target.data)) cd.1)) := by
        unfold processColumnEntry
        rw [if_neg hf]
      have hrhs : processColumnEntry cat target.data cd
          = (cd.1, processFixedColumn cat cd.2 (lookupData target.data cd.1)) := by
        unfold processColumnEntry
        rw [if_neg hf]
      rw [houter, hrhs, hlook2,
        processFixedColumn_idem cat cd.2 (hdef cd hcd)]
  unfold preprocessMetadata
  rw [PrimitiveMetadata.mk.injEq]
  refine ⟨rfl, ?_, by simp, by simp, rfl⟩
  show initialMetadata.map (processColumnEntry cat
      (initialMetadata.map (processColumnEntry cat target.data)))
    = initialMetadata.map (processColumnEntry cat target.data)
  exact hdata

/-- Witness for C7: a concrete two-column catalog with no redirects and a partial stored
record (one column missing, one containing an id outside the defaults): preprocessing
twice equals preprocessing once. -/
theorem preprocessMetadata_idempotent_witness :
    preprocessMetadata (fun _ => some { redirect := none })
        [("focus", []), ("tech", ["a", "b"])]
        (preprocessMetadata (fun _ => some { redirect := none })
          [("focus", []), ("tech", ["a", "b"])]
          { updatedTime := 5, data := [("tech", ["b", "zz"])], pinnedColumns := none,
            aggregatedViews := none, action := .init })
      = preprocessMetadata (fun _ => some { redirect := none })
          [("focus", []), ("tech", ["a", "b"])]
          { updatedTime := 5, data := [("tech", ["b", "zz"])], pinnedColumns := none,
            aggregatedViews := none, action := .init } := by
  apply preprocessMetadata_idempotent
  · decide
  · intro k e t hk ht
    have he : e = { redirect := none } := (Option.some.inj hk).symm
    subst he
    simp at ht
  · intro cd _ d _
    rfl

/-- The serialized comparison snapshot of useSync: JSON.stringify over data,
aggregatedViews and pinnedColumns; snapshot equality models string equality of the
serialized forms. -/
structure SyncSnapshot where
  data : List (String × List String)
  aggregatedViews : Option (List AggregatedViewConfig)
  pinnedColumns : Option (List String)
deriving DecidableEq, Repr

/-- metadataString of useSync (src/hooks/useSync.ts lines 110-114). -/
def metadataString (m : PrimitiveMetadata) : SyncSnapshot :=
  { data := m.data
    aggregatedViews := m.aggregatedViews
    pinnedColumns := m.pinnedColumns }

/-- Sync engine client state: the last-synced baseline; none models the initial empty
string, which no snapshot serializes to. -/
structure SyncState where
  lastSynced : Option SyncSnapshot
deriving DecidableEq, Repr

/-- The debounced callback body of useSync (lines 116-122): act only when the action tag
is "manual" and the serialized metadata differs from the baseline; the upload itself
(the observed push request) additionally needs a JWT, and the baseline is updated after
the attempt either way. The Bool reports whether a push request went out. -/
def debounceFire (hasJwt : Bool) (m : PrimitiveMetadata) (st : SyncState) :
    SyncState × Bool :=
  if m.action = .manual ∧ some (metadataString m) ≠ st.lastSynced then
    ({ lastSynced := some (metadataString m) }, hasJwt)
  else (st, false)

/-- Which metadata values the debounce timer fires on, the update events given as
(time, value) pairs in time order with quiet window W: an event's pending timer is
cancelled iff a further event arrives strictly before its deadline; the last event's
timer always fires. -/
def firedEvents (W : Int) : List (Int × PrimitiveMetadata) → List PrimitiveMetadata
  | [] => []
  | [(_, m)] => [m]
  | (t1, m1) :: (t2, m2) :: rest =>
    (if t1 + W ≤ t2 then [m1] else []) ++ firedEvents W ((t2, m2) :: rest)

/-- Run the debounced callback over the fired metadata values, counting the push
requests that went out. -/
def runSync (hasJwt : Bool) (st : SyncState) : List PrimitiveMetadata → SyncState × Nat
  | [] => (st, 0)
  | m :: ms =>
    let fired := debounceFire hasJwt m st
    let rest := runSync hasJwt fired.1 ms
    (rest.1, (if fired.2 then 1 else 0) + rest.2)

/-- A burst of events each arriving before the previous one's debounce deadline
collapses to a single timer firing. -/
theorem firedEvents_burst (W : Int) :
    ∀ (events : List (Int × PrimitiveMetadata)), events ≠ [] →
      List.Chain' (fun a b => b.1 < a.1 + W) events →
      ∃ m, firedEvents W events = [m] := by
  intro events
  induction events with
  | nil => intro h; exact absurd rfl h
  | cons e rest ih =>
    intro _ hchain
    cases rest with
    | nil => exact ⟨e.2, rfl⟩
    | cons e2 rest2 =>
      have hch := List.chain'_cons.mp hchain
      obtain ⟨m, hm⟩ := ih (by simp) hch.2
      refine ⟨m, ?_⟩
      show (if e.1 + W ≤ e2.1 then [e.2] else []) ++ firedEvents W (e2 :: rest2) = [m]
      rw [if_neg (by have := hch.1; omega), hm]
      rfl

/-- C8: a debounced push goes out only when the held record's action tag is "manual" and
its serialized content differs from the last-synced baseline; and a burst of local edits
whose gaps all stay inside one debounce quiet window produces at most one push request. -/
theorem debounced_push_only_when_changed :
    (∀ (hasJwt : Bool) (m : PrimitiveMetadata) (st : SyncState),
      (debounceFire hasJwt m st).2 = true →
        m.action = .manual ∧ some (metadataString m) ≠ st.lastSynced)
    ∧ (∀ (W : Int) (events : List (Int × PrimitiveMetadata)) (hasJwt : Bool)
          (st : SyncState),
        events ≠ [] →
        List.Chain' (fun a b => b.1 < a.1 + W) events →
        (runSync hasJwt st (firedEvents W events)).2 ≤ 1) := by
  constructor
  · intro hasJwt m st hp
    unfold debounceFire at hp
    by_cases hc : m.action = .manual ∧ some (metadataString m) ≠ st.lastSynced
    · exact hc
    · rw [if_neg hc] at hp
      simp at hp
  · intro W events hasJwt st hne hchain
    obtain ⟨m, hm⟩ := firedEvents_burst W events hne hchain
    rw [hm]
    by_cases hb : (debounceFire hasJwt m st).2 = true
    · simp [runSync, hb]
    · simp [runSync, hb]

/-- Witness for C8: a concrete manual record differing from an empty baseline makes the
fired callback push, with its preconditions holding; and a concrete three-edit burst
inside a 10 second window yields at most one push. -/
theorem debounced_push_only_when_changed_witness :
    (({ updatedTime := 200, data := [("focus", ["a"])], pinnedColumns := none,
        aggregatedViews := none, action := .manual } : PrimitiveMetadata).action
          = MetaAction.manual
      ∧ some (metadataString
            { updatedTime := 200, data := [("focus", ["a"])],
              pinnedColumns := none, aggregatedViews := none, action := .manual })
        ≠ ({ lastSynced := none } : SyncState).lastSynced)
    ∧ (runSync true { lastSynced := none }
        (firedEvents 10000
          [(0, { updatedTime := 200, data := [("focus", ["a"])], pinnedColumns := none,
                 aggregatedViews := none, action := .manual }),
           (3000, { updatedTime := 203, data := [("focus", ["a", "b"])],
                    pinnedColumns := none, aggregatedViews := none, action := .manual }),
           (5000, { updatedTime := 205, data := [("focus", ["b"])],
                    pinnedColumns := none, aggregatedViews := none,
                    action := .manual })])).2 ≤ 1 := by
  constructor
  · exact debounced_push_only_when_changed.1 true
      { updatedTime := 200, data := [("focus", ["a"])], pinnedColumns := none,
        aggregatedViews := none, action := .manual }
      { lastSynced := none }
      (by decide)
  · exact debounced_push_only_when_changed.2 10000
      [(0, { updatedTime := 200, data := [("focus", ["a"])], pinnedColumns := none,
             aggregatedViews := none, action := .manual }),
       (3000, { updatedTime := 203, data := [("focus", ["a", "b"])],
                pinnedColumns := none, aggregatedViews := none, action := .manual }),
       (5000, { updatedTime := 205, data := [("focus", ["b"])],
                pinnedColumns := none, aggregatedViews := none, action := .manual })]
      true { lastSynced := none } (by decide)
      (List.Chain.cons (by decide) (List.Chain.cons (by decide) List.Chain.nil))
